import Mathlib

/-!
Verification development for the gopilot-cli agent execution engine.

Shallow embedding of the Go sources:
* `internal/llm/retry` (retry executor `Do`),
* `internal/agent/tokenizer` (token estimation),
* `internal/agent/summarizer` (history summarization),
* `internal/tools/bash.go` (foreground/background shell tools),
* `internal/agent/agent.go` (agent loop `Run`).

External effects (the chat-completion service, the tokenizer encoding,
process spawning, the scheduler race between completion / timeout /
cancellation, the logger) are modelled as explicit environment oracles
passed to the embedded functions; everything else is translated
structurally from the Go code.
-/

set_option autoImplicit false

namespace Gopilot

/-! ## Retry executor (internal/llm/retry, src/unnamed/part_001) -/

namespace retry

/-- Embedding of `retry.Config`.  `MaxRetries` is a Go `int`, hence `Int`
(negative values are representable and change the control flow of `Do`).
Delays are durations in nanoseconds; `ExponentialBase` is the float base,
represented as a rational.  The delay computation (`CalculateDelay`, float
arithmetic) only influences real-time waiting, which is abstracted by the
cancellation oracle below, so it is not embedded. -/
structure Config where
  Enabled : Bool
  MaxRetries : Int
  InitialDelay : Int
  MaxDelay : Int
  ExponentialBase : ℚ

/-- Embedding of `retry.DefaultConfig`. -/
def DefaultConfig : Config :=
  { Enabled := true
    MaxRetries := 3
    InitialDelay := 1000000000
    MaxDelay := 60000000000
    ExponentialBase := 2 }

/-- The Go `error` value returned by `Do`: either the wrapped
`ExhaustedError{LastError, Attempts}`, the cancellation error from
`ctx.Err()`, or a plain error passed through verbatim. -/
inductive RetryError (E : Type) where
  | exhausted (lastError : E) (attempts : Nat)
  | ctxCancelled
  | plain (e : E)
deriving Repr

/-- Result of a run of `Do`, together with the observables the spec talks
about: `calls` counts invocations of the wrapped operation, `retries`
records each `onRetry(err, attempt)` invocation in order. -/
structure DoResult (T E : Type) where
  value : T
  error : Option (RetryError E)
  calls : Nat
  retries : List (E × Nat)
deriving Repr

/-- The `for attempt := 0; attempt <= cfg.MaxRetries; attempt++` loop body
of `retry.Do`, entered only when `MaxRetries >= 0` (then `N =
MaxRetries.toNat`).  The operation is modelled as a function of the
invocation index (`fn attempt` is the outcome of the `attempt`-th call);
`cancel attempt` tells whether the caller cancellation signal fires during
the backoff delay after the `attempt`-th failed call (the
`select ctx.Done() / time.After(delay)` race).  `zero` is the Go zero
value of `T`.  The final `else` branch is the `return zero, lastErr`
statement after the loop. -/
def doLoop {T E : Type} (N : Nat) (fn : Nat → T × Option E) (cancel : Nat → Bool)
    (zero : T) (attempt : Nat) (lastErr : Option E) : DoResult T E :=
  if _h : attempt ≤ N then
    match fn attempt with
    | (result, none) => ⟨result, none, 1, []⟩
    | (_, some e) =>
      if N ≤ attempt then
        ⟨zero, some (.exhausted e (attempt + 1)), 1, []⟩
      else if cancel attempt then
        ⟨zero, some .ctxCancelled, 1, [(e, attempt + 1)]⟩
      else
        let rest := doLoop N fn cancel zero (attempt + 1) (some e)
        ⟨rest.value, rest.error, rest.calls + 1, (e, attempt + 1) :: rest.retries⟩
  else
    ⟨zero, lastErr.map .plain, 0, []⟩
termination_by N + 1 - attempt

/-- Embedding of `retry.Do`.  A `nil` config pointer selects
`DefaultConfig`; a disabled policy invokes the operation once and returns
its outcome verbatim; a negative `MaxRetries` makes the loop body run zero
times, falling through to `return zero, lastErr` with `lastErr = nil`. -/
def Do {T E : Type} (cfgPtr : Option Config) (fn : Nat → T × Option E)
    (cancel : Nat → Bool) (zero : T) : DoResult T E :=
  let cfg := cfgPtr.getD DefaultConfig
  if !cfg.Enabled then
    let (r, e) := fn 0
    ⟨r, e.map .plain, 1, []⟩
  else if cfg.MaxRetries < 0 then
    ⟨zero, none, 0, []⟩
  else
    doLoop cfg.MaxRetries.toNat fn cancel zero 0 none

end retry

/-! ## Message schema (internal/schema, src/unnamed/part_006) -/

/-- A dynamic Go value as stored in a `map[string]any` argument mapping.
`vFloat` represents a `float64` by the rational number it denotes;
`vOther` stands for any other dynamic type (hit by the `default` case of
the type switches in `getIntArg`/`getBoolArg`). -/
inductive GoVal where
  | vString (s : String)
  | vInt (i : Int)
  | vInt32 (i : Int)
  | vInt64 (i : Int)
  | vFloat (q : ℚ)
  | vBool (b : Bool)
  | vOther

/-- A Go `map[string]any`, modelled by its lookup function. -/
abbrev Args : Type := String → Option GoVal

/-- Embedding of `schema.FunctionCall`. -/
structure FunctionCall where
  name : String
  arguments : Args

/-- Embedding of `schema.ToolCall`. -/
structure ToolCall where
  id : String
  type : String
  function : FunctionCall

/-- Embedding of `schema.Message`.  Role is a plain string, as in Go. -/
structure Message where
  role : String
  content : String
  thinking : String
  toolCalls : List ToolCall
  toolCallID : String
  name : String

instance : Inhabited Message := ⟨⟨"", "", "", [], "", ""⟩⟩

/-- Embedding of `schema.LLMResponse`. -/
structure LLMResponse where
  content : String
  thinking : String
  toolCalls : List ToolCall
  finishReason : String

/-! ## Token estimator (internal/agent/tokenizer, src/unnamed/part_002)

The tiktoken encoder is an external library; it is modelled as an oracle
`enc : String → Nat` that may be unavailable (`none`), matching the
`tiktoken.GetEncoding` error branch.  `fmtTC` is the oracle for the Go
`fmt.Sprintf("%v", m.ToolCalls)` rendering of a tool-call list. -/

namespace tokenizer

/-- Embedding of `tokenizer.countTokens`: zero for empty text, otherwise
the encoded length. -/
def countTokens (enc : String → Nat) (text : String) : Nat :=
  if text = "" then 0 else enc text

/-- Embedding of `tokenizer.EstimateTokensFallback`: sum of byte lengths
of content, thinking and the rendered tool calls, divided by 2.5.  The Go
code computes `int(float64(total) / 2.5)`; for a nonnegative integer
`total` (far below `2^51`) this equals truncated division `2 * total / 5`,
which is how it is written here. -/
def EstimateTokensFallback (fmtTC : List ToolCall → String)
    (messages : List Message) : Int :=
  let total := (messages.map (fun m =>
    m.content.utf8ByteSize + m.thinking.utf8ByteSize +
      (if m.toolCalls.isEmpty then 0 else (fmtTC m.toolCalls).utf8ByteSize))).sum
  ((2 * total) / 5 : Nat)

/-- Embedding of `tokenizer.EstimateTokens`: per message, the encoded
lengths of content and thinking (zero when empty), the encoded length of
the rendered tool calls when present, plus a fixed overhead of 4; falls
back to `EstimateTokensFallback` when the encoder is unavailable. -/
def EstimateTokens (enc : Option (String → Nat)) (fmtTC : List ToolCall → String)
    (messages : List Message) : Int :=
  match enc with
  | none => EstimateTokensFallback fmtTC messages
  | some e =>
    ((messages.map (fun m =>
      countTokens e m.content + countTokens e m.thinking +
        (if m.toolCalls.isEmpty then 0 else e (fmtTC m.toolCalls)) + 4)).sum : Nat)

end tokenizer

/-- Environment oracles shared by the summarizer and the agent loop: the
optional tokenizer encoding, the tool-call renderer, and the chat
completion service `llm.Client.Generate`.  `gen req withTools` is the
outcome of one `Generate(ctx, req, tools)` call; the boolean records
whether a tool registry was passed (the agent loop passes one, the
summarizer passes `nil`). -/
structure LlmEnv where
  enc : Option (String → Nat)
  fmtTC : List ToolCall → String
  gen : List Message → Bool → Except String LLMResponse

/-! ## History summarizer (internal/agent/summarizer/summarizer.go) -/

namespace summarizer

/-- Embedding of `Summarizer.createSummary`: builds the round transcript
and prompt exactly as the Go code does and asks the model (with a `nil`
tool registry); on failure the error is propagated to the caller. -/
def createSummary (gen : List Message → Bool → Except String LLMResponse)
    (msgs : List Message) (round : Nat) : Except String String :=
  let sb := s!"Round {round} execution process:\n\n" ++
    String.join (msgs.map (fun m =>
      if m.role = "assistant" then
        "Assistant: " ++ m.content ++ "\n" ++
          (if m.toolCalls.isEmpty then ""
           else "  → Called tools: " ++
             String.intercalate ", " (m.toolCalls.map (fun tc => tc.function.name)) ++ "\n")
      else if m.role = "tool" then
        "  ← Tool returned: " ++ m.content ++ "\n"
      else ""))
  let prompt := "\nPlease summarize the following agent execution process:\n\n" ++ sb ++
    "\n\nRules:\n- Focus on what the agent did and which tools were used\n- Concise, English, < 800 words\n- Summarize execution only (no user content)\n"
  let req : List Message :=
    [⟨"system", "You summarize agent execution processes.", "", [], "", ""⟩,
     ⟨"user", prompt, "", [], "", ""⟩]
  match gen req false with
  | .error e => .error e
  | .ok resp => .ok resp.content

/-- The end index of the round starting at the current user index: the
next user index if there is one, else the history length
(`end := userIdx[i+1]` or `len(messages)`). -/
def roundEnd (messages : List Message) (rest : List Nat) : Nat :=
  match rest with
  | [] => messages.length
  | ui2 :: _ => ui2

/-- The `for i, ui := range userIdx` loop of `SummarizeMessages`: per
round, append the leading user message `messages[ui]`; when the round has
trailing messages `messages[ui+1:end]`, attempt a summary and append a
synthetic user message on success; on failure, log and `continue`. -/
def roundsLoop (gen : List Message → Bool → Except String LLMResponse)
    (messages : List Message) : Nat → List Nat → List Message
  | _, [] => []
  | round, ui :: rest =>
    let execMsgs := (messages.take (roundEnd messages rest)).drop (ui + 1)
    let summaryMsgs :=
      if execMsgs.isEmpty then []
      else
        match createSummary gen execMsgs round with
        | .ok summary => [⟨"user", "[Execution Summary]\n\n" ++ summary, "", [], "", ""⟩]
        | .error _ => []
    messages.getD ui default :: (summaryMsgs ++ roundsLoop gen messages (round + 1) rest)

/-- Embedding of `Summarizer.SummarizeMessages`.  The second component is
the returned Go `error` (which is `nil` on every path of the source). -/
def SummarizeMessages (env : LlmEnv) (tokenLimit : Int)
    (messages : List Message) : List Message × Option String :=
  let tokens := tokenizer.EstimateTokens env.enc env.fmtTC messages
  if tokens ≤ tokenLimit then (messages, none)
  else
    let userIdx := (List.range messages.length).filter
      (fun i => decide (0 < i) && decide ((messages.getD i default).role = "user"))
    if userIdx.isEmpty then (messages, none)
    else (messages.headI :: roundsLoop env.gen messages 1 userIdx, none)

end summarizer

/-! ## Process supervisor and bash tools (internal/tools/bash.go) -/

namespace tools

/-- Embedding of `tools.ToolResult` (base.go).  `Error` is a Go string
field, empty when absent. -/
structure ToolResult where
  success : Bool
  content : String
  error : String
  stdout : String
  stderr : String
  exitCode : Int
  bashID : String

/-- Go conversion `int(f)` for a `float64` (truncation toward zero),
on the rational denoted by the float. -/
def goTruncFloat (q : ℚ) : Int :=
  Int.tdiv q.num q.den

/-- Embedding of `getIntArg`: type-switch on the dynamic value, returning
the default for a missing key or an unhandled type. -/
def getIntArg (args : Args) (key : String) (d : Int) : Int :=
  match args key with
  | none => d
  | some v =>
    match v with
    | .vInt i => i
    | .vInt32 i => i
    | .vInt64 i => i
    | .vFloat q => goTruncFloat q
    | _ => d

/-- Embedding of `getBoolArg`. -/
def getBoolArg (args : Args) (key : String) (d : Bool) : Bool :=
  match args key with
  | none => d
  | some v =>
    match v with
    | .vBool b => b
    | _ => d

/-- The Go idiom `s, _ := args[key].(string)`: the string value if the key
holds one, else the empty string. -/
def getStrArg (args : Args) (key : String) : String :=
  match args key with
  | some (.vString s) => s
  | _ => ""

/-- Go `strings.TrimSpace`, written structurally on the character list
(drops leading and trailing whitespace). -/
def goTrimSpace (s : String) : String :=
  ⟨((s.data.dropWhile Char.isWhitespace).reverse.dropWhile Char.isWhitespace).reverse⟩

/-- Embedding of `formatBashContent`.  The trailing `(no output)` branch
is unreachable (the exit-code section is always written), as in the Go
code. -/
def formatBashContent (stdout stderr : String) (exitCode : Int) (bashID : String) : String :=
  let b := if stdout ≠ "" then stdout else ""
  let b := if stderr ≠ "" then
      (if b ≠ "" then b ++ "\n" else b) ++ "[stderr]:\n" ++ stderr
    else b
  let b := if bashID ≠ "" then
      (if b ≠ "" then b ++ "\n" else b) ++ "[bash_id]:\n" ++ bashID
    else b
  let b := (if b ≠ "" then b ++ "\n" else b) ++ "[exit_code]:\n" ++ toString exitCode
  if b = "" then "(no output)" else b

/-- Embedding of `BackgroundShell`.  The `Cmd` process handle, the merged
stdout reader and the start timestamp are external resources and carry no
state the claims depend on; `LastReadIndex` is a Go `int`, hence `Int`. -/
structure BackgroundShell where
  bashID : String
  command : String
  outputLines : List String
  lastReadIndex : Int
  status : String
  exitCode : Option Int

/-- The Go slice expression `l[i:]`: defined when `0 ≤ i ≤ len(l)`,
otherwise the program panics (modelled by `none`). -/
def goSliceFrom (l : List String) (i : Int) : Option (List String) :=
  if 0 ≤ i ∧ i ≤ l.length then some (l.drop i.toNat) else none

/-- Embedding of `BackgroundShell.AddOutput`. -/
def BackgroundShell.AddOutput (s : BackgroundShell) (line : String) : BackgroundShell :=
  { s with outputLines := s.outputLines ++ [line] }

/-- Embedding of `BackgroundShell.GetNewOutput`: the lines since the last
read (a Go slice, `none` on an out-of-bounds cursor) and the shell with
its cursor advanced to the end of the buffer. -/
def BackgroundShell.GetNewOutput (s : BackgroundShell) :
    Option (List String) × BackgroundShell :=
  (goSliceFrom s.outputLines s.lastReadIndex,
   { s with lastReadIndex := (s.outputLines.length : Int) })

/-- Embedding of `BackgroundShell.UpdateStatus`. -/
def BackgroundShell.UpdateStatus (s : BackgroundShell) (alive : Bool) (code : Int) :
    BackgroundShell :=
  if alive then { s with status := "running" }
  else if code = 0 then { s with status := "completed", exitCode := some code }
  else { s with status := "failed", exitCode := some code }

/-- Embedding of `BackgroundShell.SetErrorStatus`: sets status `error` and
appends the error text as a synthetic output line. -/
def BackgroundShell.SetErrorStatus (s : BackgroundShell) (msg : String) : BackgroundShell :=
  { s with status := "error", outputLines := s.outputLines ++ ["Monitor error: " ++ msg] }

/-- Embedding of `BackgroundShell.Terminate`: kills the process (an
external effect), sets status `terminated` and exit code `-1`. -/
def BackgroundShell.Terminate (s : BackgroundShell) : BackgroundShell :=
  { s with status := "terminated", exitCode := some (-1) }

/-- The shell registered by the background branch of `BashTool.Execute`:
empty output buffer, zero cursor, status `running`, no exit code. -/
def initialShell (id command : String) : BackgroundShell :=
  ⟨id, command, [], 0, "running", none⟩

/-- One mutation of a `BackgroundShell` (the operations taken under the
per-shell lock). -/
inductive ShellOp where
  | addOutput (line : String)
  | getNewOutput
  | updateStatus (alive : Bool) (code : Int)
  | setErrorStatus (msg : String)
  | terminate

/-- Apply one shell operation to the shell state. -/
def applyShellOp : ShellOp → BackgroundShell → BackgroundShell
  | .addOutput line, s => s.AddOutput line
  | .getNewOutput, s => s.GetNewOutput.2
  | .updateStatus alive code, s => s.UpdateStatus alive code
  | .setErrorStatus msg, s => s.SetErrorStatus msg
  | .terminate, s => s.Terminate

/-- The read-cursor invariant: `0 <= LastReadIndex <= len(OutputLines)`. -/
def ShellInv (s : BackgroundShell) : Prop :=
  0 ≤ s.lastReadIndex ∧ s.lastReadIndex ≤ s.outputLines.length

instance (s : BackgroundShell) : Decidable (ShellInv s) := by
  unfold ShellInv; infer_instance

/-- Embedding of `BackgroundShellManager.shells` (a Go map from id to
shell pointer), modelled as an association list with unique keys. -/
abbrev Manager : Type := List (String × BackgroundShell)

/-- Map lookup `m.shells[id]` (a `nil` pointer when absent). -/
def mgrGet (m : Manager) (id : String) : Option BackgroundShell :=
  (m.find? (fun p => p.1 == id)).map (fun p => p.2)

/-- Embedding of `BackgroundShellManager.Remove` (`delete(m.shells, id)`). -/
def mgrRemove (m : Manager) (id : String) : Manager :=
  m.filter (fun p => p.1 != id)

/-- Embedding of `BackgroundShellManager.Add` (`m.shells[sh.BashID] = sh`). -/
def mgrAdd (m : Manager) (sh : BackgroundShell) : Manager :=
  mgrRemove m sh.bashID ++ [(sh.bashID, sh)]

/-- Writing back the (pointer-)mutated shell under its id. -/
def mgrUpdate (m : Manager) (id : String) (sh : BackgroundShell) : Manager :=
  m.map (fun p => if p.1 == id then (id, sh) else p)

/-- Embedding of `BackgroundShellManager.ListIDs` (map iteration order is
the order of the association list here). -/
def mgrListIDs (m : Manager) : List String :=
  m.map (fun p => p.1)

/-- All registered shells satisfy the cursor invariant. -/
def MgrInv (m : Manager) : Prop :=
  ∀ p ∈ m, ShellInv p.2

/-- Go `fmt.Sprintf("%v", slice)` rendering of a string slice. -/
def goFmtStrList (l : List String) : String :=
  "[" ++ String.intercalate " " l ++ "]"

/-- The not-found error text shared by `bash_output` and `bash_kill`
(`fmt.Sprintf("Shell not found: %s. Available: %v", id, available)`). -/
def notFoundMsg (id : String) (m : Manager) : String :=
  "Shell not found: " ++ id ++ ". Available: " ++ goFmtStrList (mgrListIDs m)

/-- The failure result returned for an unknown shell id. -/
def notFoundResult (id : String) (m : Manager) : ToolResult :=
  ⟨false, "", notFoundMsg id m, "", "", 0, ""⟩

/-- The timeout clamping of the foreground branch of `BashTool.Execute`
(bash.go:347-352): `getIntArg(args, "timeout", 120)`, then values above
600 are clamped to 600 and values below 1 fall back to 120. -/
def effectiveTimeout (args : Args) : Int :=
  let timeout := getIntArg args "timeout" 120
  if 600 < timeout then 600
  else if timeout < 1 then 120
  else timeout

/-- Which of the three `select` arms of the foreground branch fires:
caller cancellation (with the `ctx.Err()` text), natural completion of
`cmd.Run()` (with its error, `nil` on exit code 0), or timeout expiry. -/
inductive RaceOutcome where
  | ctxDone (ctxErr : String)
  | cmdDone (runErr : Option String)
  | timedOut

/-- Environment oracles for one `BashTool.Execute` call: the pipe and
start errors of the background branch, the foreground race outcome, the
captured output buffers, the process state after waiting (`none` when the
process never ran), and the generated background id. -/
structure BashEnv where
  pipeErr : Option String
  startErr : Option String
  race : RaceOutcome
  stdoutBuf : String
  stderrBuf : String
  processState : Option Int
  newID : String

/-- Embedding of `BashTool.Execute`.  Returns the `(*ToolResult, error)`
pair together with the updated shell registry.  The choice of shell
binary (`bash -c` vs `powershell.exe`) only affects the spawned process,
which the environment oracles abstract. -/
def BashTool.Execute (args : Args) (env : BashEnv) (m : Manager) :
    (ToolResult × Option String) × Manager :=
  let command := getStrArg args "command"
  if goTrimSpace command = "" then
    ((⟨false, "", "command is required", "", "", 0, ""⟩, none), m)
  else
    let timeout := effectiveTimeout args
    let runBG := getBoolArg args "run_in_background" false
    if runBG then
      match env.pipeErr with
      | some e => ((⟨false, "", "failed to get stdout pipe: " ++ e, "", "", 0, ""⟩, none), m)
      | none =>
        match env.startErr with
        | some e => ((⟨false, "", e, "", "", 0, ""⟩, none), m)
        | none =>
          let id := env.newID
          let m2 := mgrAdd m (initialShell id command)
          let message := "Command started in background. Use bash_output to monitor (bash_id=\x27" ++ id ++ "\x27)."
          ((⟨true, message ++ "\n\nCommand: " ++ command ++ "\nBash ID: " ++ id,
            "", "Background command started with ID: " ++ id, "", 0, id⟩, none), m2)
    else
      let errOpt : Option String :=
        match env.race with
        | .ctxDone ce => some ("command cancelled: " ++ ce)
        | .cmdDone re => re
        | .timedOut => some ("command timed out after " ++ toString timeout ++ " seconds")
      let exitCode : Int :=
        match env.processState with
        | some c => c
        | none => if errOpt.isSome then -1 else 0
      let content := formatBashContent env.stdoutBuf env.stderrBuf exitCode ""
      match errOpt with
      | some e =>
        ((⟨false, content, e, env.stdoutBuf, env.stderrBuf, exitCode, ""⟩, none), m)
      | none =>
        ((⟨true, content, "", env.stdoutBuf, env.stderrBuf, exitCode, ""⟩, none), m)

/-- Embedding of `BashOutputTool.Execute`.  `re` is the oracle for
`regexp.Compile`: `some matcher` when the pattern compiles, `none` when it
does not (then all new lines are returned unfiltered).  The outer `none`
models a Go panic (out-of-bounds cursor slice), which `MgrInv` rules
out. -/
def BashOutputTool.Execute (re : String → Option (String → Bool))
    (args : Args) (m : Manager) : Option ((ToolResult × Option String) × Manager) :=
  let id := getStrArg args "bash_id"
  let filterStr := getStrArg args "filter_str"
  match mgrGet m id with
  | none => some ((notFoundResult id m, none), m)
  | some shell =>
    match shell.GetNewOutput with
    | (none, _) => none
    | (some lines0, shell2) =>
      let lines :=
        if filterStr ≠ "" then
          match re filterStr with
          | some matcher => lines0.filter matcher
          | none => lines0
        else lines0
      let stdout := String.intercalate "\n" lines
      let exitCode := shell2.exitCode.getD 0
      let content := formatBashContent stdout "" exitCode id
      some ((⟨true, content, "", stdout, "", exitCode, id⟩, none), mgrUpdate m id shell2)

/-- Embedding of `BashKillTool.Execute`: drain the unread output,
terminate, remove from the registry; the exit code read afterwards comes
from the terminated shell (always `-1`). -/
def BashKillTool.Execute (args : Args) (m : Manager) :
    Option ((ToolResult × Option String) × Manager) :=
  let id := getStrArg args "bash_id"
  match mgrGet m id with
  | none => some ((notFoundResult id m, none), m)
  | some shell =>
    match shell.GetNewOutput with
    | (none, _) => none
    | (some lines, shell2) =>
      let stdout := String.intercalate "\n" lines
      let shell3 := shell2.Terminate
      let m2 := mgrRemove m id
      let exitCode := shell3.exitCode.getD (-1)
      let content := formatBashContent stdout "" exitCode id
      some ((⟨true, content, "", stdout, "", exitCode, id⟩, none), m2)

/-- An argument map holding only a `bash_id` string. -/
def idArgs (id : String) : Args :=
  fun k => if k = "bash_id" then some (.vString id) else none

end tools

/-! ## Agent loop (internal/agent/agent.go) -/

namespace agent

/-- Go `strings.Contains`. -/
def goContains (s sub : String) : Bool :=
  if sub = "" then true else (s.splitOn sub).length != 1

/-- The system prompt after `NewAgent` injects the workspace note (when
the prompt does not already mention `Current Workspace`);
`absWorkspace` is the oracle for `filepath.Abs` of the workspace path. -/
def newAgentSystemPrompt (systemPrompt absWorkspace : String) : String :=
  if goContains systemPrompt "Current Workspace" then systemPrompt
  else
    systemPrompt ++ "\n\n## Current Workspace\nCurrent workspace: \x60" ++
      absWorkspace ++ "\x60\nAll relative paths will resolve here."

/-- The initial message history built by `NewAgent`: exactly one system
message. -/
def newAgentMessages (systemPrompt absWorkspace : String) : List Message :=
  [⟨"system", newAgentSystemPrompt systemPrompt absWorkspace, "", [], "", ""⟩]

/-- Embedding of `Agent.AddUserMessage`. -/
def addUserMessage (messages : List Message) (content : String) : List Message :=
  messages ++ [⟨"user", content, "", [], "", ""⟩]

/-- Environment oracles for one `Agent.Run` call: the llm oracles, the
tool map membership test, the result of executing the `j`-th tool call of
step `step`, and the `AgentLogger.StartNewRun` error. -/
structure RunEnv where
  llm : LlmEnv
  hasTool : String → Bool
  toolExec : Nat → Nat → ToolCall → tools.ToolResult × Option String
  logStartErr : Option String

/-- Outcome of `Agent.Run`: the returned `(string, error)` pair, the final
message history, and the final value of the `step` counter. -/
structure RunOutcome where
  finalText : String
  error : Option String
  messages : List Message
  steps : Nat

/-- The `tool`-role message appended for one tool call: unknown tools and
execution errors become failure results; failures are rendered as
`"Error: " + err`. -/
def toolResultMessage (env : RunEnv) (step j : Nat) (tc : ToolCall) : Message :=
  let fname := tc.function.name
  let result : tools.ToolResult :=
    if env.hasTool fname then
      match env.toolExec step j tc with
      | (_, some err) => ⟨false, "", err, "", "", 0, ""⟩
      | (r, none) => r
    else ⟨false, "", "Unknown tool: " ++ fname, "", "", 0, ""⟩
  let retval := if result.success then result.content else "Error: " ++ result.error
  ⟨"tool", retval, "", [], tc.id, fname⟩

/-- The `for step < maxSteps` loop of `Agent.Run`.  `fuel` is the number
of remaining iterations (`maxSteps.toNat - step`); per iteration the
history is summarized, the model is called, the assistant message is
appended, and either the loop returns the content (no tool calls) or
appends one `tool` message per call in order and continues. -/
def runLoop (env : RunEnv) (tokenLimit maxSteps : Int) :
    Nat → Nat → List Message → RunOutcome
  | 0, step, msgs =>
    ⟨"Task could not complete in " ++ toString maxSteps ++ " steps.", none, msgs, step⟩
  | fuel + 1, step, msgs =>
    let summarized := summarizer.SummarizeMessages env.llm tokenLimit msgs
    let msgs1 := if summarized.2.isSome then msgs else summarized.1
    match env.llm.gen msgs1 true with
    | .error e => ⟨e, some e, msgs1, step⟩
    | .ok resp =>
      let msgs2 := msgs1 ++ [⟨"assistant", resp.content, resp.thinking, resp.toolCalls, "", ""⟩]
      if resp.toolCalls.isEmpty then ⟨resp.content, none, msgs2, step⟩
      else
        let msgs3 := msgs2 ++ resp.toolCalls.enum.map (fun p => toolResultMessage env step p.1 p.2)
        runLoop env tokenLimit maxSteps fuel (step + 1) msgs3

/-- Embedding of `Agent.Run`: a failing `StartNewRun` aborts with the
error; otherwise the loop runs from `step = 0`. -/
def Run (env : RunEnv) (tokenLimit maxSteps : Int) (messages : List Message) : RunOutcome :=
  match env.logStartErr with
  | some e => ⟨"", some e, messages, 0⟩
  | none => runLoop env tokenLimit maxSteps maxSteps.toNat 0 messages

/-- The system-message invariant of the history: non-empty, the first
message has role `system`, and no other message does. -/
def SystemFirst (messages : List Message) : Prop :=
  messages ≠ [] ∧ messages.headI.role = "system" ∧
    ∀ m ∈ messages.tail, m.role ≠ "system"

instance (messages : List Message) : Decidable (messages = ([] : List Message)) :=
  match messages with
  | [] => isTrue rfl
  | _ :: _ => isFalse (by simp)

instance (messages : List Message) : Decidable (SystemFirst messages) := by
  unfold SystemFirst; infer_instance

end agent

/-! ## Concrete inputs used by counterexamples and witnesses -/

/-- An enabled config with a negative `MaxRetries`, used to refute C4 as
stated. -/
def cfgNegRetries : retry.Config :=
  { Enabled := true, MaxRetries := -1, InitialDelay := 0, MaxDelay := 0, ExponentialBase := 2 }

/-- An llm environment with no tokenizer encoding and a failing chat
service. -/
def envNoLlm : LlmEnv :=
  ⟨none, fun _ => "", fun _ _ => .error "llm down"⟩

/-- Concrete three-message history: system, user, assistant. -/
def msgSys : Message := ⟨"system", "You are a helpful agent", "", [], "", ""⟩

/-- The user message of the concrete history. -/
def msgUser : Message := ⟨"user", "please do the task", "", [], "", ""⟩

/-- The assistant message of the concrete history. -/
def msgAsst : Message := ⟨"assistant", "working on it", "", [], "", ""⟩

/-- An argument map supplying a foreground command and an out-of-range
timeout of 601 seconds. -/
def argsTimeout601 : Args :=
  fun k =>
    if k = "command" then some (.vString "sleep 999")
    else if k = "timeout" then some (.vInt 601)
    else none

/-- A bash environment in which the timeout arm of the select fires. -/
def envTimedOut : tools.BashEnv :=
  ⟨none, none, .timedOut, "", "", none, "ab12cd34"⟩

/-- A response requesting one tool call, for the agent-loop witnesses. -/
def respToolCall : LLMResponse :=
  ⟨"", "", [⟨"call-1", "function", ⟨"do_work", fun _ => none⟩⟩], "tool_calls"⟩

/-- A run environment whose model always requests one tool call. -/
def envAlwaysToolCall : agent.RunEnv :=
  ⟨⟨none, fun _ => "", fun _ _ => .ok respToolCall⟩, fun _ => false,
    fun _ _ _ => (⟨true, "", "", "", "", 0, ""⟩, none), none⟩

/-! ### Lemmas about the retry loop -/

/-- Mapping successor over a `range'` shifts its start. -/
theorem range'_map_add_one : ∀ (a k : Nat),
    (List.range' a k).map (fun i => i + 1) = List.range' (a + 1) k := by
  intro a k
  induction k generalizing a with
  | zero => rfl
  | succ k ih => simp [List.range'_succ, ih]

/-- If the operation fails at every attempt from `a` to `N` and the caller
never cancels, the loop runs all remaining attempts, invokes the operation
once per attempt, logs one `onRetry` per non-final attempt, and ends with
the exhausted error carrying the last error and attempt count `N + 1`. -/
theorem doLoop_all_fail {T E : Type} (N : Nat) (fn : Nat → T × Option E)
    (cancel : Nat → Bool) (zero : T) (errs : Nat → E)
    (hfail : ∀ i, i ≤ N → (fn i).2 = some (errs i))
    (hcancel : ∀ i, i < N → cancel i = false) :
    ∀ (k a : Nat), a + k = N → ∀ lastErr,
      retry.doLoop N fn cancel zero a lastErr =
        ⟨zero, some (.exhausted (errs N) (N + 1)), k + 1,
          (List.range' a k).map (fun i => (errs i, i + 1))⟩ := by
  intro k
  induction k with
  | zero =>
    intro a ha lastErr
    have haN : a = N := by omega
    subst haN
    rw [retry.doLoop]
    have h2 := hfail a le_rfl
    rcases hv : fn a with ⟨v, e⟩
    rw [hv] at h2
    simp only at h2
    subst h2
    simp [hv]
  | succ k ih =>
    intro a ha lastErr
    have haN : a < N := by omega
    rw [retry.doLoop]
    have h2 := hfail a (by omega)
    rcases hv : fn a with ⟨v, e⟩
    rw [hv] at h2
    simp only at h2
    subst h2
    have hc : cancel a = false := hcancel a haN
    have hrec := ih (a + 1) (by omega) (some (errs a))
    have hnle : ¬ N ≤ a := by omega
    simp [hv, hnle, hc, hrec, List.range'_succ]; omega

/-- If the operation fails at attempts `a, ..., a + k - 1`, succeeds at
attempt `a + k ≤ N`, and the caller never cancels, the loop returns the
success value after exactly `k + 1` invocations with one `onRetry` call
per failed attempt. -/
theorem doLoop_succeeds {T E : Type} (N : Nat) (fn : Nat → T × Option E)
    (cancel : Nat → Bool) (zero : T) (errs : Nat → E) :
    ∀ (k a : Nat), a + k ≤ N →
      (∀ i, a ≤ i → i < a + k → (fn i).2 = some (errs i)) →
      (fn (a + k)).2 = none →
      (∀ i, a ≤ i → i < a + k → cancel i = false) →
      ∀ lastErr,
        retry.doLoop N fn cancel zero a lastErr =
          ⟨(fn (a + k)).1, none, k + 1,
            (List.range' a k).map (fun i => (errs i, i + 1))⟩ := by
  intro k
  induction k with
  | zero =>
    intro a ha _hfail hsucc _hcancel lastErr
    simp only [Nat.add_zero] at hsucc ⊢
    rw [retry.doLoop]
    rcases hv : fn a with ⟨v, e⟩
    rw [hv] at hsucc
    simp only at hsucc
    subst hsucc
    simp [hv]; omega
  | succ k ih =>
    intro a ha hfail hsucc hcancel lastErr
    have haN : a < N := by omega
    rw [retry.doLoop]
    have h2 := hfail a le_rfl (by omega)
    rcases hv : fn a with ⟨v, e⟩
    rw [hv] at h2
    simp only at h2
    subst h2
    have hc : cancel a = false := hcancel a le_rfl (by omega)
    have hrec := ih (a + 1) (by omega)
      (fun i h1 h2 => hfail i (by omega) (by omega))
      (by have : a + 1 + k = a + (k + 1) := by omega
          rw [this]; exact hsucc)
      (fun i h1 h2 => hcancel i (by omega) (by omega)) (some (errs a))
    have hnle : ¬ N ≤ a := by omega
    have hshift : a + 1 + k = a + (k + 1) := by omega
    simp [hv, hnle, hc, hrec, hshift, List.range'_succ]; omega

/-! ### Claim theorems for the retry executor -/

/-- C4 counterexample: for the enabled policy with `max_attempts = -1`
(`MaxRetries` is a Go `int`, so `-1` is a legal policy value) and an
operation that fails on every attempt, `Do` returns a `nil` error — not an
attempts-exhausted error — and never invokes the operation at all: the
`for attempt := 0; attempt <= cfg.MaxRetries` loop body runs zero times
and the function falls through to `return zero, lastErr` with
`lastErr = nil`. -/
theorem C4_counterexample :
    (retry.Do (some cfgNegRetries)
      (fun _ => ((0 : Int), some "boom")) (fun _ => false) 0).error = none ∧
    (retry.Do (some cfgNegRetries)
      (fun _ => ((0 : Int), some "boom")) (fun _ => false) 0).calls = 0 := by
  constructor <;> rfl

/-- C4 (amended): for every enabled retry policy with `max_attempts ≥ 0`
and every operation that fails on every attempt, absent caller
cancellation, `Do` invokes the operation exactly `max_attempts + 1` times
and returns an attempts-exhausted error carrying the last underlying
error and the attempt count `max_attempts + 1` (as the zero value of the
result together with the `ExhaustedError`), logging one `onRetry` per
non-final attempt. -/
theorem C4_do_always_fail_exhausts {T E : Type} (cfg : retry.Config)
    (fn : Nat → T × Option E) (cancel : Nat → Bool) (zero : T) (errs : Nat → E)
    (hen : cfg.Enabled = true) (hnn : 0 ≤ cfg.MaxRetries)
    (hfail : ∀ i, i ≤ cfg.MaxRetries.toNat → (fn i).2 = some (errs i))
    (hcancel : ∀ i, i < cfg.MaxRetries.toNat → cancel i = false) :
    retry.Do (some cfg) fn cancel zero =
      ⟨zero,
        some (.exhausted (errs cfg.MaxRetries.toNat) (cfg.MaxRetries.toNat + 1)),
        cfg.MaxRetries.toNat + 1,
        (List.range' 0 cfg.MaxRetries.toNat).map (fun i => (errs i, i + 1))⟩ := by
  have hlt : ¬ cfg.MaxRetries < 0 := by omega
  unfold retry.Do
  simp only [Option.getD, hen, Bool.not_true, Bool.false_eq_true, if_false, hlt, if_true]
  have := doLoop_all_fail cfg.MaxRetries.toNat fn cancel zero errs hfail hcancel
    cfg.MaxRetries.toNat 0 (by omega) none
  simpa using this

/-- Witness for the amended C4 at a concrete input: `max_attempts = 2`,
an operation that always fails with error `"E"`, no cancellation. -/
theorem C4_witness :
    retry.Do (some ⟨true, 2, 0, 0, 2⟩)
        (fun _ => ((0 : Int), some "E")) (fun _ => false) 0 =
      ⟨0, some (.exhausted "E" 3), 3, [("E", 1), ("E", 2)]⟩ := by
  have h := C4_do_always_fail_exhausts ⟨true, 2, 0, 0, 2⟩
    (fun _ => ((0 : Int), some "E")) (fun _ => false) 0 (fun _ => "E")
    rfl (by decide) (fun i _ => rfl) (fun i _ => rfl)
  simpa using h

/-- C5: for every enabled retry policy and every operation that fails on
exactly the first `k < max_attempts` invocations and then succeeds, `Do`
returns the success value with a `nil` error, performs no further attempts
after the success (exactly `k + 1` invocations), and invokes `onRetry`
exactly `k` times with strictly increasing attempt numbers `1, ..., k`. -/
theorem C5_do_success_after_k_failures {T E : Type} (cfg : retry.Config)
    (fn : Nat → T × Option E) (cancel : Nat → Bool) (zero : T) (errs : Nat → E)
    (k : Nat) (hen : cfg.Enabled = true) (hk : (k : Int) < cfg.MaxRetries)
    (hfail : ∀ i, i < k → (fn i).2 = some (errs i))
    (hsucc : (fn k).2 = none)
    (hcancel : ∀ i, i < k → cancel i = false) :
    retry.Do (some cfg) fn cancel zero =
      ⟨(fn k).1, none, k + 1, (List.range' 0 k).map (fun i => (errs i, i + 1))⟩ ∧
    (retry.Do (some cfg) fn cancel zero).retries.map Prod.snd = List.range' 1 k := by
  have hnn : ¬ cfg.MaxRetries < 0 := by omega
  have hkN : k ≤ cfg.MaxRetries.toNat := by omega
  have hmain : retry.Do (some cfg) fn cancel zero =
      ⟨(fn k).1, none, k + 1, (List.range' 0 k).map (fun i => (errs i, i + 1))⟩ := by
    unfold retry.Do
    simp only [Option.getD, hen, Bool.not_true, Bool.false_eq_true, if_false, hnn, if_true]
    have := doLoop_succeeds cfg.MaxRetries.toNat fn cancel zero errs k 0 (by omega)
      (fun i _ h2 => hfail i (by omega)) (by simpa using hsucc)
      (fun i _ h2 => hcancel i (by omega)) none
    simpa using this
  refine ⟨hmain, ?_⟩
  rw [hmain]
  simp only [List.map_map]
  have : (Prod.snd ∘ fun i => (errs i, i + 1)) = fun i => i + 1 := rfl
  rw [this, range'_map_add_one]

/-- Witness for C5 at a concrete input: `max_attempts = 3`, an operation
failing on the first two invocations with `"E"` and then returning `7`. -/
theorem C5_witness :
    retry.Do (some ⟨true, 3, 0, 0, 2⟩)
        (fun i => if i < 2 then ((0 : Int), some "E") else (7, none)) (fun _ => false) 0 =
      ⟨7, none, 3, [("E", 1), ("E", 2)]⟩ := by
  have h := C5_do_success_after_k_failures ⟨true, 3, 0, 0, 2⟩
    (fun i => if i < 2 then ((0 : Int), some "E") else (7, none)) (fun _ => false) 0
    (fun _ => "E") 2 rfl (by decide)
    (fun i hi => by interval_cases i <;> rfl) (by rfl) (fun i _ => rfl)
  simpa using h.1

/-! ### Lemmas and claim theorems for the summarizer -/

/-- `SummarizeMessages` returns a `nil` Go error on every path. -/
theorem summarize_err_none (env : LlmEnv) (tokenLimit : Int) (messages : List Message) :
    (summarizer.SummarizeMessages env tokenLimit messages).2 = none := by
  simp only [summarizer.SummarizeMessages]
  split
  · rfl
  · split
    · rfl
    · rfl

/-- C6: for every message history whose estimated token count is at most
the token limit, `SummarizeMessages` returns the input history unchanged
with a `nil` error. -/
theorem C6_summarize_identity_under_limit (env : LlmEnv) (tokenLimit : Int)
    (messages : List Message)
    (h : tokenizer.EstimateTokens env.enc env.fmtTC messages ≤ tokenLimit) :
    summarizer.SummarizeMessages env tokenLimit messages = (messages, none) := by
  unfold summarizer.SummarizeMessages
  simp [h]

/-- Witness for C6 at a concrete history of two small messages under a
limit of 1000 tokens. -/
theorem C6_witness :
    tokenizer.EstimateTokens envNoLlm.enc envNoLlm.fmtTC [msgSys, msgUser] ≤ 1000 ∧
    summarizer.SummarizeMessages envNoLlm 1000 [msgSys, msgUser] = ([msgSys, msgUser], none) :=
  ⟨by decide, C6_summarize_identity_under_limit envNoLlm 1000 [msgSys, msgUser] (by decide)⟩

/-- C1 counterexample: a three-message history (system, user, assistant)
over the token limit, whose single round summarization call fails.  The
code logs and `continue`s without re-appending the round, so the output is
`[system, user]`: the round's original assistant message is NOT still
present in the output history, contrary to the claim. -/
theorem C1_counterexample :
    (summarizer.SummarizeMessages envNoLlm 0 [msgSys, msgUser, msgAsst]).1 =
      [msgSys, msgUser] ∧
    ∀ m ∈ (summarizer.SummarizeMessages envNoLlm 0 [msgSys, msgUser, msgAsst]).1,
      m.role ≠ "assistant" := by
  have h1 : (summarizer.SummarizeMessages envNoLlm 0 [msgSys, msgUser, msgAsst]).1 =
      [msgSys, msgUser] := by rfl
  refine ⟨h1, ?_⟩
  rw [h1]
  intro m hm
  simp only [List.mem_cons, List.not_mem_nil, or_false] at hm
  rcases hm with rfl | rfl
  · decide
  · decide

/-- C1 (amended): a failed per-round summarization call is not fatal —
`SummarizeMessages` always returns a `nil` error — and summarization
continues with the remaining rounds, but the failing round is not left
unmodified: it contributes only its leading user message to the output
and its trailing assistant/tool messages are dropped. -/
theorem C1_round_failure_drops_round (env : LlmEnv) (tokenLimit : Int)
    (messages : List Message)
    (gen : List Message → Bool → Except String LLMResponse) (msgs : List Message)
    (round ui : Nat) (rest : List Nat) (e : String)
    (hfail : summarizer.createSummary gen
      ((msgs.take (summarizer.roundEnd msgs rest)).drop (ui + 1)) round =
        .error e) :
    (summarizer.SummarizeMessages env tokenLimit messages).2 = none ∧
    summarizer.roundsLoop gen msgs round (ui :: rest) =
      msgs.getD ui default :: summarizer.roundsLoop gen msgs (round + 1) rest := by
  refine ⟨summarize_err_none env tokenLimit messages, ?_⟩
  rw [summarizer.roundsLoop]
  split
  · simp
  · rw [hfail]
    simp

/-- Witness for the amended C1: the failing single round keeps only its
user message, and the summarizer reports no error. -/
theorem C1_witness :
    (summarizer.SummarizeMessages envNoLlm 1000000 [msgSys]).2 = none ∧
    summarizer.roundsLoop envNoLlm.gen [msgSys, msgUser, msgAsst] 1 [1] = [msgUser] := by
  have h := C1_round_failure_drops_round envNoLlm 1000000 [msgSys] envNoLlm.gen
    [msgSys, msgUser, msgAsst] 1 1 [] "llm down" (by rfl)
  refine ⟨h.1, ?_⟩
  rw [h.2]
  rfl

/-! ### Claim theorems for the bash timeout clamp (C2) -/

/-- In the foreground timed-out branch, the error message reports exactly
the effective (clamped) timeout. -/
theorem bashExecute_timedOut_error (args : Args) (env : tools.BashEnv)
    (m : tools.Manager) (hrace : env.race = .timedOut)
    (hbg : tools.getBoolArg args "run_in_background" false = false)
    (hcmd : tools.goTrimSpace (tools.getStrArg args "command") ≠ "") :
    ((tools.BashTool.Execute args env m).1.1).error =
      "command timed out after " ++ toString (tools.effectiveTimeout args) ++ " seconds" := by
  simp [tools.BashTool.Execute, hbg, hrace, hcmd]

/-- C2 counterexample: a foreground call supplying `timeout = 601` (out of
range).  The effective timeout is clamped to 600 — observable in the
timeout error message of `BashTool.Execute` — and is not the claimed
default of 120. -/
theorem C2_counterexample :
    tools.effectiveTimeout argsTimeout601 = 600 ∧
    ((tools.BashTool.Execute argsTimeout601 envTimedOut []).1.1).error =
      "command timed out after 600 seconds" ∧
    (600 : Int) ≠ 120 := by
  refine ⟨rfl, ?_, by decide⟩
  have h := bashExecute_timedOut_error argsTimeout601 envTimedOut [] rfl rfl (by decide)
  rw [h]
  rfl

/-- C2 (amended): the effective foreground timeout equals the supplied
integer `t` when `1 ≤ t ≤ 600`, is clamped to 600 when `t > 600`, and
defaults to 120 when the argument is absent or `t < 1`; the timed-out
branch of `BashTool.Execute` reports exactly this effective value. -/
theorem C2_timeout_clamping (args : Args) (t : Int) (env : tools.BashEnv)
    (m : tools.Manager) :
    (args "timeout" = none → tools.effectiveTimeout args = 120) ∧
    (args "timeout" = some (.vInt t) →
      ((1 ≤ t → t ≤ 600 → tools.effectiveTimeout args = t) ∧
       (600 < t → tools.effectiveTimeout args = 600) ∧
       (t < 1 → tools.effectiveTimeout args = 120))) ∧
    (env.race = .timedOut → tools.getBoolArg args "run_in_background" false = false →
      tools.goTrimSpace (tools.getStrArg args "command") ≠ "" →
      ((tools.BashTool.Execute args env m).1.1).error =
        "command timed out after " ++ toString (tools.effectiveTimeout args) ++ " seconds") := by
  refine ⟨?_, ?_, ?_⟩
  · intro h
    simp [tools.effectiveTimeout, tools.getIntArg, h]
  · intro h
    refine ⟨?_, ?_, ?_⟩ <;>
      · intros
        simp only [tools.effectiveTimeout, tools.getIntArg, h]
        split_ifs <;> omega
  · exact bashExecute_timedOut_error args env m

/-- Witness for the amended C2: a supplied in-range timeout of 300 seconds
is used as-is. -/
theorem C2_witness :
    tools.effectiveTimeout (fun k => if k = "timeout" then some (.vInt 300) else none) = 300 := by
  have h := (C2_timeout_clamping (fun k => if k = "timeout" then some (.vInt 300) else none)
    300 envTimedOut []).2.1 rfl
  exact h.1 (by decide) (by decide)

/-! ### Claim theorems for the background shell cursor invariant (C10) -/

/-- C10: the read-cursor invariant `0 ≤ LastReadIndex ≤ len(OutputLines)`
holds for a freshly registered shell and is preserved by every shell
operation; under it the slice taken by `GetNewOutput` is in bounds (no
panic), and an immediately repeated `GetNewOutput` returns no lines. -/
theorem C10_cursor_invariant (id cmd : String) (op : tools.ShellOp)
    (s : tools.BackgroundShell) (h : tools.ShellInv s) :
    tools.ShellInv (tools.initialShell id cmd) ∧
    tools.ShellInv (tools.applyShellOp op s) ∧
    (s.GetNewOutput).1.isSome ∧
    ((s.GetNewOutput).2.GetNewOutput).1 = some [] := by
  obtain ⟨h0, h1⟩ := h
  refine ⟨⟨by simp [tools.initialShell], by simp [tools.initialShell]⟩, ?_, ?_, ?_⟩
  · cases op with
    | addOutput line =>
      refine ⟨h0, ?_⟩
      simp only [tools.applyShellOp, tools.BackgroundShell.AddOutput, List.length_append,
        List.length_cons, List.length_nil]
      omega
    | getNewOutput =>
      constructor <;> simp [tools.applyShellOp, tools.BackgroundShell.GetNewOutput]
    | updateStatus alive code =>
      simp only [tools.applyShellOp, tools.BackgroundShell.UpdateStatus]
      split_ifs <;> exact ⟨h0, h1⟩
    | setErrorStatus msg =>
      refine ⟨h0, ?_⟩
      simp only [tools.applyShellOp, tools.BackgroundShell.SetErrorStatus, List.length_append,
        List.length_cons, List.length_nil]
      omega
    | terminate => exact ⟨h0, h1⟩
  · simp [tools.BackgroundShell.GetNewOutput, tools.goSliceFrom, h0, h1]
  · simp [tools.BackgroundShell.GetNewOutput, tools.goSliceFrom]

/-! ### Lemmas and claim theorems for the shell registry (C7, C9) -/

/-- A nonempty string stays nonempty when extended on the right. -/
theorem str_append_ne_left (s t : String) (h : s ≠ "") : s ++ t ≠ "" := by
  intro hc
  apply h
  have hd : s.data ++ t.data = [] := by
    have := congrArg String.data hc
    simpa [String.data_append] using this
  have hs : s.data = [] := (List.append_eq_nil.mp hd).1
  cases s
  simp_all

/-- After `Remove`, lookup of the removed id yields `nil`. -/
theorem mgrGet_remove_self (m : tools.Manager) (id : String) :
    tools.mgrGet (tools.mgrRemove m id) id = none := by
  have hf : (tools.mgrRemove m id).find? (fun p => p.1 == id) = none := by
    rw [List.find?_eq_none]
    intro p hp
    have := (List.mem_filter.mp hp).2
    simpa using this
  simp [tools.mgrGet, hf]

/-- A successful lookup in a registry of invariant-satisfying shells
yields an invariant-satisfying shell. -/
theorem mgrInv_get (m : tools.Manager) (id : String) (sh : tools.BackgroundShell)
    (hm : tools.MgrInv m) (h : tools.mgrGet m id = some sh) : tools.ShellInv sh := by
  unfold tools.mgrGet at h
  cases hf : m.find? (fun p => p.1 == id) with
  | none => rw [hf] at h; simp at h
  | some p =>
    rw [hf] at h
    simp at h
    exact h ▸ hm p (List.mem_of_find?_eq_some hf)

/-- C7: a successful `bash_kill` on a registered id removes the job from
the registry, and every subsequent `bash_output` or `bash_kill` call with
the same id returns a failure result whose error reports the shell as not
found. -/
theorem C7_kill_removes_then_not_found (id : String)
    (re : String → Option (String → Bool)) (m : tools.Manager)
    (shell : tools.BackgroundShell)
    (hget : tools.mgrGet m id = some shell) (hinv : tools.ShellInv shell) :
    (∃ res : tools.ToolResult,
      tools.BashKillTool.Execute (tools.idArgs id) m =
        some ((res, none), tools.mgrRemove m id) ∧ res.success = true) ∧
    tools.mgrGet (tools.mgrRemove m id) id = none ∧
    tools.BashOutputTool.Execute re (tools.idArgs id) (tools.mgrRemove m id) =
      some ((tools.notFoundResult id (tools.mgrRemove m id), none), tools.mgrRemove m id) ∧
    (tools.notFoundResult id (tools.mgrRemove m id)).success = false ∧
    (tools.notFoundResult id (tools.mgrRemove m id)).error =
      "Shell not found: " ++ id ++ ". Available: " ++
        tools.goFmtStrList (tools.mgrListIDs (tools.mgrRemove m id)) ∧
    tools.BashKillTool.Execute (tools.idArgs id) (tools.mgrRemove m id) =
      some ((tools.notFoundResult id (tools.mgrRemove m id), none), tools.mgrRemove m id) := by
  have hid : tools.getStrArg (tools.idArgs id) "bash_id" = id := by
    simp [tools.getStrArg, tools.idArgs]
  have hslice : tools.goSliceFrom shell.outputLines shell.lastReadIndex =
      some (shell.outputLines.drop shell.lastReadIndex.toNat) :=
    if_pos ⟨hinv.1, hinv.2⟩
  have hnone := mgrGet_remove_self m id
  refine ⟨⟨⟨true,
      tools.formatBashContent
        (String.intercalate "\n" (shell.outputLines.drop shell.lastReadIndex.toNat)) ""
        (-1) id, "",
      String.intercalate "\n" (shell.outputLines.drop shell.lastReadIndex.toNat), "", -1, id⟩,
      ?_, rfl⟩, hnone, ?_, rfl, rfl, ?_⟩
  · simp [tools.BashKillTool.Execute, hid, hget, tools.BackgroundShell.GetNewOutput, hslice,
      tools.BackgroundShell.Terminate]
  · simp [tools.BashOutputTool.Execute, hid, hnone]
  · simp [tools.BashKillTool.Execute, hid, hnone]

/-- Witness for C7 on a registry holding one freshly started shell with id
`abc`. -/
theorem C7_witness :
    (∃ res : tools.ToolResult,
      tools.BashKillTool.Execute (tools.idArgs "abc")
          [("abc", tools.initialShell "abc" "sleep 99")] =
        some ((res, none),
          tools.mgrRemove [("abc", tools.initialShell "abc" "sleep 99")] "abc") ∧
      res.success = true) ∧
    tools.mgrGet (tools.mgrRemove [("abc", tools.initialShell "abc" "sleep 99")] "abc") "abc" =
      none ∧
    tools.BashOutputTool.Execute (fun _ => none) (tools.idArgs "abc")
        (tools.mgrRemove [("abc", tools.initialShell "abc" "sleep 99")] "abc") =
      some ((tools.notFoundResult "abc"
          (tools.mgrRemove [("abc", tools.initialShell "abc" "sleep 99")] "abc"), none),
        tools.mgrRemove [("abc", tools.initialShell "abc" "sleep 99")] "abc") ∧
    (tools.notFoundResult "abc"
      (tools.mgrRemove [("abc", tools.initialShell "abc" "sleep 99")] "abc")).success = false ∧
    (tools.notFoundResult "abc"
      (tools.mgrRemove [("abc", tools.initialShell "abc" "sleep 99")] "abc")).error =
      "Shell not found: " ++ "abc" ++ ". Available: " ++
        tools.goFmtStrList (tools.mgrListIDs
          (tools.mgrRemove [("abc", tools.initialShell "abc" "sleep 99")] "abc")) ∧
    tools.BashKillTool.Execute (tools.idArgs "abc")
        (tools.mgrRemove [("abc", tools.initialShell "abc" "sleep 99")] "abc") =
      some ((tools.notFoundResult "abc"
          (tools.mgrRemove [("abc", tools.initialShell "abc" "sleep 99")] "abc"), none),
        tools.mgrRemove [("abc", tools.initialShell "abc" "sleep 99")] "abc") :=
  C7_kill_removes_then_not_found "abc" (fun _ => none)
    [("abc", tools.initialShell "abc" "sleep 99")]
    (tools.initialShell "abc" "sleep 99") rfl (by decide)

/-- C9: every `Execute` of the three bash tools returns a `nil` Go error;
all failures are reported in-band as a `ToolResult` with `Success = false`
and a non-empty `Error` field.  The hypotheses state that the Go `error`
strings produced by the environment (`cmd.Start`, `cmd.Run`) are
non-empty, and that all registered shells satisfy the cursor invariant
(so the background tools do not panic). -/
theorem C9_tools_never_return_go_error (args : Args) (env : tools.BashEnv)
    (m : tools.Manager) (re : String → Option (String → Bool))
    (hm : tools.MgrInv m)
    (hstart : ∀ e, env.startErr = some e → e ≠ "")
    (hrun : ∀ e, env.race = .cmdDone (some e) → e ≠ "") :
    (((tools.BashTool.Execute args env m).1).2 = none ∧
      (((tools.BashTool.Execute args env m).1).1.success = false →
        ((tools.BashTool.Execute args env m).1).1.error ≠ "")) ∧
    ((tools.BashOutputTool.Execute re args m).isSome ∧
      ∀ out, tools.BashOutputTool.Execute re args m = some out →
        (out.1).2 = none ∧ ((out.1).1.success = false → (out.1).1.error ≠ "")) ∧
    ((tools.BashKillTool.Execute args m).isSome ∧
      ∀ out, tools.BashKillTool.Execute args m = some out →
        (out.1).2 = none ∧ ((out.1).1.success = false → (out.1).1.error ≠ "")) := by
  refine ⟨⟨?_, ?_⟩, ?_, ?_⟩
  · simp only [tools.BashTool.Execute]
    repeat' split
    all_goals rfl
  · by_cases hcmd : tools.goTrimSpace (tools.getStrArg args "command") = ""
    · intro _
      simp only [tools.BashTool.Execute, if_pos hcmd]
      decide
    · by_cases hbg : tools.getBoolArg args "run_in_background" false = true
      · cases hpipe : env.pipeErr with
        | some e =>
          intro _
          simp only [tools.BashTool.Execute, if_neg hcmd, hbg, if_true, hpipe]
          exact str_append_ne_left "failed to get stdout pipe: " e (by decide)
        | none =>
          cases hstartE : env.startErr with
          | some e =>
            intro _
            simp only [tools.BashTool.Execute, if_neg hcmd, hbg, if_true, hpipe, hstartE]
            exact hstart e hstartE
          | none =>
            intro hs
            exfalso
            simp only [tools.BashTool.Execute, if_neg hcmd, hbg, if_true, hpipe, hstartE] at hs
            simp at hs
      · have hbg2 : tools.getBoolArg args "run_in_background" false = false := by
          revert hbg
          cases tools.getBoolArg args "run_in_background" false <;> simp
        cases hrace2 : env.race with
        | ctxDone ce =>
          intro _
          simp only [tools.BashTool.Execute, if_neg hcmd, hbg2, hrace2]
          exact str_append_ne_left "command cancelled: " ce (by decide)
        | cmdDone rerr =>
          cases rerr with
          | some e =>
            intro _
            simp only [tools.BashTool.Execute, if_neg hcmd, hbg2, hrace2]
            exact hrun e hrace2
          | none =>
            intro hs
            exfalso
            simp only [tools.BashTool.Execute, if_neg hcmd, hbg2, hrace2] at hs
            simp at hs
        | timedOut =>
          intro _
          simp only [tools.BashTool.Execute, if_neg hcmd, hbg2, hrace2]
          exact str_append_ne_left "command timed out after " _ (by decide)
  · constructor
    · simp only [tools.BashOutputTool.Execute]
      cases hg : tools.mgrGet m (tools.getStrArg args "bash_id") with
      | none => simp
      | some shell =>
        have hinv := mgrInv_get m _ shell hm hg
        have hslice : tools.goSliceFrom shell.outputLines shell.lastReadIndex =
            some (shell.outputLines.drop shell.lastReadIndex.toNat) :=
          if_pos ⟨hinv.1, hinv.2⟩
        simp [tools.BackgroundShell.GetNewOutput, hslice]
    · intro out hout
      simp only [tools.BashOutputTool.Execute] at hout
      cases hg : tools.mgrGet m (tools.getStrArg args "bash_id") with
      | none =>
        rw [hg] at hout
        simp only [Option.some_inj] at hout
        subst hout
        refine ⟨rfl, fun _ => ?_⟩
        exact str_append_ne_left "Shell not found: " _ (by decide)
      | some shell =>
        have hinv := mgrInv_get m _ shell hm hg
        have hslice : tools.goSliceFrom shell.outputLines shell.lastReadIndex =
            some (shell.outputLines.drop shell.lastReadIndex.toNat) :=
          if_pos ⟨hinv.1, hinv.2⟩
        rw [hg] at hout
        simp only [tools.BackgroundShell.GetNewOutput, hslice, Option.some_inj] at hout
        subst hout
        exact ⟨rfl, by simp⟩
  · constructor
    · simp only [tools.BashKillTool.Execute]
      cases hg : tools.mgrGet m (tools.getStrArg args "bash_id") with
      | none => simp
      | some shell =>
        have hinv := mgrInv_get m _ shell hm hg
        have hslice : tools.goSliceFrom shell.outputLines shell.lastReadIndex =
            some (shell.outputLines.drop shell.lastReadIndex.toNat) :=
          if_pos ⟨hinv.1, hinv.2⟩
        simp [tools.BackgroundShell.GetNewOutput, hslice]
    · intro out hout
      simp only [tools.BashKillTool.Execute] at hout
      cases hg : tools.mgrGet m (tools.getStrArg args "bash_id") with
      | none =>
        rw [hg] at hout
        simp only [Option.some_inj] at hout
        subst hout
        refine ⟨rfl, fun _ => ?_⟩
        exact str_append_ne_left "Shell not found: " _ (by decide)
      | some shell =>
        have hinv := mgrInv_get m _ shell hm hg
        have hslice : tools.goSliceFrom shell.outputLines shell.lastReadIndex =
            some (shell.outputLines.drop shell.lastReadIndex.toNat) :=
          if_pos ⟨hinv.1, hinv.2⟩
        rw [hg] at hout
        simp only [tools.BackgroundShell.GetNewOutput, hslice, Option.some_inj] at hout
        subst hout
        exact ⟨rfl, by simp⟩

/-- Witness for C9: an empty registry, empty arguments (missing command),
and an environment with no start or run errors. -/
theorem C9_witness :
    (((tools.BashTool.Execute (fun _ => none) envTimedOut []).1).2 = none ∧
      (((tools.BashTool.Execute (fun _ => none) envTimedOut []).1).1.success = false →
        ((tools.BashTool.Execute (fun _ => none) envTimedOut []).1).1.error ≠ "")) ∧
    ((tools.BashOutputTool.Execute (fun _ => none) (fun _ => none) []).isSome ∧
      ∀ out, tools.BashOutputTool.Execute (fun _ => none) (fun _ => none) [] = some out →
        (out.1).2 = none ∧ ((out.1).1.success = false → (out.1).1.error ≠ "")) ∧
    ((tools.BashKillTool.Execute (fun _ => none) []).isSome ∧
      ∀ out, tools.BashKillTool.Execute (fun _ => none) [] = some out →
        (out.1).2 = none ∧ ((out.1).1.success = false → (out.1).1.error ≠ "")) :=
  C9_tools_never_return_go_error (fun _ => none) envTimedOut [] (fun _ => none)
    (by intro p hp; simp at hp)
    (by intro e he; simp [envTimedOut] at he)
    (by intro e he; simp [envTimedOut] at he)

/-! ### Lemmas and claim theorems for the agent loop (C3, C8) -/

/-- Appending messages whose roles are not `system` preserves the
system-first invariant. -/
theorem systemFirst_append (msgs add : List Message) (h : agent.SystemFirst msgs)
    (hadd : ∀ m ∈ add, m.role ≠ "system") : agent.SystemFirst (msgs ++ add) := by
  obtain ⟨hne, hhead, htail⟩ := h
  cases msgs with
  | nil => exact absurd rfl hne
  | cons a t =>
    refine ⟨by simp, by simpa using hhead, ?_⟩
    intro m hm
    simp only [List.cons_append, List.tail_cons, List.mem_append] at hm
    rcases hm with hm | hm
    · exact htail m (by simpa using hm)
    · exact hadd m hm

/-- Every message produced by the rounds loop of the summarizer has role
`user`, provided the messages at the collected user indices do. -/
theorem roundsLoop_roles (gen : List Message → Bool → Except String LLMResponse)
    (messages : List Message) :
    ∀ (idxs : List Nat), (∀ ui ∈ idxs, (messages.getD ui default).role = "user") →
      ∀ (round : Nat) (m : Message), m ∈ summarizer.roundsLoop gen messages round idxs →
        m.role = "user" := by
  intro idxs
  induction idxs with
  | nil =>
    intro _ round m hm
    simp [summarizer.roundsLoop] at hm
  | cons ui rest ih =>
    intro h round m hm
    rw [summarizer.roundsLoop] at hm
    simp only [List.mem_cons, List.mem_append] at hm
    rcases hm with rfl | hm | hm
    · exact h ui (by simp)
    · revert hm
      split
      · intro hm; simp at hm
      · split
        · intro hm
          simp only [List.mem_singleton] at hm
          subst hm
          rfl
        · intro hm; simp at hm
    · exact ih (fun i hi => h i (by simp [hi])) (round + 1) m hm

/-- `SummarizeMessages` preserves the system-first invariant: the system
message stays at index 0 and all other output messages have role
`user`. -/
theorem systemFirst_summarize (env : LlmEnv) (tokenLimit : Int) (msgs : List Message)
    (h : agent.SystemFirst msgs) :
    agent.SystemFirst (summarizer.SummarizeMessages env tokenLimit msgs).1 := by
  simp only [summarizer.SummarizeMessages]
  split
  · exact h
  · split
    · exact h
    · refine ⟨by simp, by simpa using h.2.1, ?_⟩
      intro m hm
      simp only [List.tail_cons] at hm
      have hrole := roundsLoop_roles env.gen msgs _ ?_ 1 m hm
      · simp [hrole]
      · intro ui hui
        have hp := (List.mem_filter.mp hui).2
        simp only [Bool.and_eq_true, decide_eq_true_eq] at hp
        exact hp.2

/-- Every `tool`-role message the loop appends has role `tool`. -/
theorem toolResultMessage_role (env : agent.RunEnv) (step j : Nat) (tc : ToolCall) :
    (agent.toolResultMessage env step j tc).role = "tool" := by
  simp only [agent.toolResultMessage]

/-- The run loop preserves the system-first invariant. -/
theorem systemFirst_runLoop (env : agent.RunEnv) (tokenLimit maxSteps : Int) :
    ∀ (fuel step : Nat) (msgs : List Message), agent.SystemFirst msgs →
      agent.SystemFirst (agent.runLoop env tokenLimit maxSteps fuel step msgs).messages := by
  intro fuel
  induction fuel with
  | zero => intro step msgs h; exact h
  | succ fuel ih =>
    intro step msgs h
    rw [agent.runLoop]
    have hsum := systemFirst_summarize env.llm tokenLimit msgs h
    have h1 : agent.SystemFirst
        (if (summarizer.SummarizeMessages env.llm tokenLimit msgs).2.isSome then msgs
         else (summarizer.SummarizeMessages env.llm tokenLimit msgs).1) := by
      split
      · exact h
      · exact hsum
    cases hg : env.llm.gen (if (summarizer.SummarizeMessages env.llm tokenLimit msgs).2.isSome
        then msgs else (summarizer.SummarizeMessages env.llm tokenLimit msgs).1) true with
    | error e => simpa [hg] using h1
    | ok resp =>
      simp only [hg]
      have h2 : agent.SystemFirst ((if (summarizer.SummarizeMessages env.llm tokenLimit
          msgs).2.isSome then msgs else (summarizer.SummarizeMessages env.llm tokenLimit
          msgs).1) ++ [⟨"assistant", resp.content, resp.thinking, resp.toolCalls, "", ""⟩]) := by
        refine systemFirst_append _ _ h1 ?_
        intro m hm
        simp only [List.mem_singleton] at hm
        subst hm
        exact (by decide : ("assistant" : String) ≠ "system")
      split
      · exact h2
      · refine ih (step + 1) _ (systemFirst_append _ _ h2 ?_)
        intro m hm
        simp only [List.mem_map] at hm
        obtain ⟨p, _, rfl⟩ := hm
        rw [toolResultMessage_role]
        decide

/-- C3: the initial history of `NewAgent` satisfies the system-first
invariant (non-empty, exactly the first message has role `system`), and
`AddUserMessage`, `SummarizeMessages` and `Run` all preserve it: the
system message is never removed, replaced or moved from index 0. -/
theorem C3_system_message_invariant (sp ws c : String) (env : agent.RunEnv)
    (tokenLimit maxSteps : Int) (msgs : List Message) (h : agent.SystemFirst msgs) :
    agent.SystemFirst (agent.newAgentMessages sp ws) ∧
    agent.SystemFirst (agent.addUserMessage msgs c) ∧
    agent.SystemFirst (summarizer.SummarizeMessages env.llm tokenLimit msgs).1 ∧
    agent.SystemFirst (agent.Run env tokenLimit maxSteps msgs).messages := by
  refine ⟨⟨by simp [agent.newAgentMessages], rfl, ?_⟩, ?_, systemFirst_summarize _ _ _ h, ?_⟩
  · intro m hm
    simp [agent.newAgentMessages] at hm
  · refine systemFirst_append _ _ h ?_
    intro m hm
    simp only [List.mem_singleton] at hm
    subst hm
    exact (by decide : ("user" : String) ≠ "system")
  · unfold agent.Run
    cases env.logStartErr with
    | some e => exact h
    | none => exact systemFirst_runLoop env tokenLimit maxSteps maxSteps.toNat 0 msgs h

/-- Witness for C3 on the freshly constructed agent history, a user turn,
and a run against the always-failing model of `envNoLlm`. -/
theorem C3_witness :
    agent.SystemFirst (agent.newAgentMessages "You are an agent" "/ws") ∧
    agent.SystemFirst (agent.addUserMessage [msgSys] "hello") ∧
    agent.SystemFirst (summarizer.SummarizeMessages
      (agent.RunEnv.mk envNoLlm (fun _ => false) (fun _ _ _ => (⟨true, "", "", "", "", 0, ""⟩, none)) none).llm
      1000 [msgSys]).1 ∧
    agent.SystemFirst (agent.Run
      (agent.RunEnv.mk envNoLlm (fun _ => false) (fun _ _ _ => (⟨true, "", "", "", "", 0, ""⟩, none)) none)
      1000 3 [msgSys]).messages :=
  C3_system_message_invariant "You are an agent" "/ws" "hello"
    (agent.RunEnv.mk envNoLlm (fun _ => false) (fun _ _ _ => (⟨true, "", "", "", "", 0, ""⟩, none)) none)
    1000 3 [msgSys] (by decide)

/-- With a model that returns a tool call on every step, the loop burns
all its fuel and exits with the budget-exceeded message, a `nil` error,
and `step` increased by the fuel. -/
theorem runLoop_budget (env : agent.RunEnv) (tokenLimit maxSteps : Int)
    (hgen : ∀ ms, ∃ resp, env.llm.gen ms true = Except.ok resp ∧ resp.toolCalls ≠ []) :
    ∀ (fuel step : Nat) (msgs : List Message),
      (agent.runLoop env tokenLimit maxSteps fuel step msgs).finalText =
        "Task could not complete in " ++ toString maxSteps ++ " steps." ∧
      (agent.runLoop env tokenLimit maxSteps fuel step msgs).error = none ∧
      (agent.runLoop env tokenLimit maxSteps fuel step msgs).steps = step + fuel := by
  intro fuel
  induction fuel with
  | zero => intro step msgs; exact ⟨rfl, rfl, rfl⟩
  | succ fuel ih =>
    intro step msgs
    rw [agent.runLoop]
    obtain ⟨resp, hok, hne⟩ := hgen
      (if (summarizer.SummarizeMessages env.llm tokenLimit msgs).2.isSome then msgs
       else (summarizer.SummarizeMessages env.llm tokenLimit msgs).1)
    simp only [hok]
    have hemp : resp.toolCalls.isEmpty = false := by
      cases hc : resp.toolCalls with
      | nil => exact absurd hc hne
      | cons a l => rfl
    rw [if_neg (by simp [hemp])]
    have hrec := ih (step + 1)
      ((if (summarizer.SummarizeMessages env.llm tokenLimit msgs).2.isSome then msgs
        else (summarizer.SummarizeMessages env.llm tokenLimit msgs).1) ++
        [⟨"assistant", resp.content, resp.thinking, resp.toolCalls, "", ""⟩] ++
        resp.toolCalls.enum.map (fun p => agent.toolResultMessage env step p.1 p.2))
    refine ⟨hrec.1, hrec.2.1, ?_⟩
    rw [hrec.2.2]
    omega

/-- C8: for an agent with `max_steps = N` and a model that requests at
least one tool call in every response (and a logger that starts
normally), `Run` terminates after exactly `N` steps with the
budget-exceeded message `"Task could not complete in N steps."` and a
`nil` error. -/
theorem C8_budget_exhaustion (env : agent.RunEnv) (tokenLimit : Int) (N : Nat)
    (msgs : List Message) (hlog : env.logStartErr = none)
    (hgen : ∀ ms, ∃ resp, env.llm.gen ms true = Except.ok resp ∧ resp.toolCalls ≠ []) :
    (agent.Run env tokenLimit (N : Int) msgs).finalText =
      "Task could not complete in " ++ toString (N : Int) ++ " steps." ∧
    (agent.Run env tokenLimit (N : Int) msgs).error = none ∧
    (agent.Run env tokenLimit (N : Int) msgs).steps = N := by
  unfold agent.Run
  rw [hlog]
  have h := runLoop_budget env tokenLimit (N : Int) hgen (N : Int).toNat 0 msgs
  simpa using h

/-- Witness for C8 with `max_steps = 2` against the always-tool-calling
model. -/
theorem C8_witness :
    (agent.Run envAlwaysToolCall 1000000 (2 : Int) [msgSys]).finalText =
      "Task could not complete in 2 steps." ∧
    (agent.Run envAlwaysToolCall 1000000 (2 : Int) [msgSys]).error = none ∧
    (agent.Run envAlwaysToolCall 1000000 (2 : Int) [msgSys]).steps = 2 := by
  have h := C8_budget_exhaustion envAlwaysToolCall 1000000 2 [msgSys] rfl
    (fun ms => ⟨respToolCall, rfl, by simp [respToolCall]⟩)
  exact ⟨h.1.trans (by rfl), h.2.1, h.2.2⟩

/-- Witness for C10 on a freshly started shell and a `GetNewOutput`
operation. -/
theorem C10_witness :
    tools.ShellInv (tools.initialShell "ab12cd34" "sleep 99") ∧
    tools.ShellInv (tools.applyShellOp .getNewOutput (tools.initialShell "ab12cd34" "sleep 99")) ∧
    ((tools.initialShell "ab12cd34" "sleep 99").GetNewOutput).1.isSome ∧
    (((tools.initialShell "ab12cd34" "sleep 99").GetNewOutput).2.GetNewOutput).1 = some [] :=
  C10_cursor_invariant "ab12cd34" "sleep 99" .getNewOutput
    (tools.initialShell "ab12cd34" "sleep 99") (by decide)

end Gopilot
